import Mathlib

/-!
Device creation of arduino-cloud-cli (`command/device/create.go`).

A shallow embedding of the board selection (`boardFromPorts`, `portFilter`,
`boardFilter`) and of the create / provision / roll back sequence (`Create`),
followed by the properties established about them.

Conventions of the embedding:

* Go strings are `String`; `==` on strings is equality of `String`.
* An optional parameter `*string` is an `Option String` (`nil` is `none`).
* A slice of pointers to protobuf messages (`[]*rpc.DetectedPort`,
  `[]*rpc.BoardListItem`) is a `List` of records: the elements are the
  messages themselves, so a `nil` element is not represented.
* A Go run-time panic is a value of `GoPanic`; a function that may panic
  returns `Except GoPanic _`.
* A Go `error` is a value of `GoError`; `(T, error)` is `Except GoError T`,
  and a lone `error` result is `Option GoError` (`nil` is `none`).
* The collaborators that are called but not defined in `create.go` (the
  commander, the configuration, the IoT client and `provision.run`) are the
  fields of a `World`, each a transition on an arbitrary state `σ`.
  Every call made by `Create` is appended to a log of `Call`s.
* `logrus.Info` has no influence on results and is left out.
-/

namespace device

/-! ## Go runtime: panics, errors, `strings.Split` -/

/-- Run-time panics raised by the code: an index expression `a[index]`
evaluated on a slice of `length` elements with `length ≤ index`. -/
inductive GoPanic where
  | indexOutOfRange (index length : Nat)
  deriving DecidableEq, Repr

deriving instance DecidableEq for Except

/-- Go error values: an error carrying a text (`errors.New`, or any error of a
collaborator), and the wrapping error built by `fmt.Errorf` with `%w`, which
stores the formatted text and the wrapped error. -/
inductive GoError where
  | New (text : String)
  | wrapError (msg : String) (err : GoError)
  deriving DecidableEq, Repr

/-- Method `Error()` of an error value. -/
def GoError.Error : GoError → String
  | .New text => text
  | .wrapError msg _ => msg

/-- Function `errors.Unwrap`: the wrapped error, if any. -/
def GoError.Unwrap : GoError → Option GoError
  | .New _ => none
  | .wrapError _ err => some err

/-- Call `fmt.Errorf("%s: %w", s, err)`. -/
def Errorf_s_w (s : String) (err : GoError) : GoError :=
  .wrapError (s ++ ": " ++ err.Error) err

/-- Splitting of a character list at every occurrence of `sep`; the result
always has one more element than there are occurrences of `sep`. -/
def splitChars (sep : Char) : List Char → List (List Char)
  | [] => [[]]
  | c :: cs =>
    if c = sep then [] :: splitChars sep cs
    else
      match splitChars sep cs with
      | [] => [[c]]
      | seg :: segs => (c :: seg) :: segs

/-- Call `strings.Split(s, sep)` for a separator `sep` of one character. -/
def strings.Split (s : String) (sep : Char) : List String :=
  (splitChars sep s.data).map String.mk

/-! ## Data model -/

/-- Record `rpc.BoardListItem` (fields read by the code, and the name). -/
structure BoardListItem where
  Name : String
  Fqbn : String
  deriving DecidableEq, Repr

/-- Record `rpc.DetectedPort` (fields read by the code). -/
structure DetectedPort where
  Address : String
  SerialNumber : String
  Boards : List BoardListItem
  deriving DecidableEq, Repr

/-- Parameters needed to find the device to be provisioned. -/
structure CreateParams where
  Name : String
  Port : Option String
  Fqbn : Option String
  deriving DecidableEq, Repr

/-- Selected board. -/
structure board where
  fqbn : String
  serial : String
  dType : String
  port : String
  deriving DecidableEq, Repr

/-- Caller-facing description of a cloud device (`list.go`). -/
structure DeviceInfo where
  Name : String
  ID : String
  Board : String
  Serial : String
  FQBN : String
  deriving DecidableEq, Repr

/-- Device record returned by the IoT client (`iotclient.ArduinoDevicev2`),
fields read by the code. -/
structure ArduinoDevicev2 where
  Id : String
  Name : String
  Type_ : String
  Serial : String
  Fqbn : String
  deriving DecidableEq, Repr

/-- Configuration returned by `config.Retrieve`. -/
structure Config where
  Client : String
  Secret : String
  deriving DecidableEq, Repr

/-! ## Board selection -/

/-- Function `portFilter`: `true` to skip the port, `false` to keep it. -/
def portFilter (port : DetectedPort) (params : CreateParams) : Bool :=
  if port.Boards.length = 0 then true
  else
    match params.Port with
    | some p => if p ≠ port.Address then true else false
    | none => false

/-- Function `boardFilter`: with no fqbn parameter the element `boards[0]`
(a panic on an empty slice), otherwise the first board whose fqbn equals the
parameter, or `nil`. -/
def boardFilter (boards : List BoardListItem) (params : CreateParams) :
    Except GoPanic (Option BoardListItem) :=
  match params.Fqbn with
  | none =>
    match boards with
    | [] => .error (.indexOutOfRange 0 0)
    | b :: _ => .ok (some b)
  | some f => .ok (boards.find? (fun b => decide (b.Fqbn = f)))

/-- Function `boardFromPorts`: the loop over the ports. -/
def boardFromPorts : List DetectedPort → CreateParams → Except GoPanic (Option board)
  | [], _ => .ok none
  | port :: ports, params =>
    if portFilter port params then boardFromPorts ports params
    else
      match boardFilter port.Boards params with
      | .error p => .error p
      | .ok none => boardFromPorts ports params
      | .ok (some boardFound) =>
        match (strings.Split boardFound.Fqbn ':')[2]? with
        | none => .error (.indexOutOfRange 2 (strings.Split boardFound.Fqbn ':').length)
        | some t => .ok (some ⟨boardFound.Fqbn, port.SerialNumber, t, port.Address⟩)

/-! ## Create: register, provision, roll back -/

/-- Calls made by `Create` to its collaborators, with their arguments. -/
inductive Call where
  | NewCommander
  | BoardList
  | Retrieve
  | NewClient (client secret : String)
  | DeviceCreate (fqbn name serial dType : String)
  | run (b : board) (id : String)
  | DeviceDelete (id : String)
  deriving DecidableEq, Repr

/-- Collaborators of `Create`, as transitions on a state `σ`:
`cli.NewCommander`, `comm.BoardList`, `config.Retrieve`, `iot.NewClient`,
`iotClient.DeviceCreate`, `prov.run` (for the board and device id stored in
the `provision` record) and `iotClient.DeviceDelete`. -/
structure World (σ : Type) where
  NewCommander : σ → Except GoError Unit × σ
  BoardList : σ → Except GoError (List DetectedPort) × σ
  Retrieve : σ → Except GoError Config × σ
  NewClient : String → String → σ → Except GoError Unit × σ
  DeviceCreate : String → String → String → String → σ → Except GoError ArduinoDevicev2 × σ
  run : board → String → σ → Option GoError × σ
  DeviceDelete : String → σ → Option GoError × σ

/-- Outcome of one execution of `Create`: what it returns (or the panic that
aborts it), the calls it made in order, and the state it leaves. -/
structure Run (σ : Type) where
  result : Except GoPanic (Except GoError DeviceInfo)
  calls : List Call
  state : σ

/-- Function `Create`. -/
def Create {σ : Type} (w : World σ) (params : CreateParams) (s0 : σ) : Run σ :=
  match w.NewCommander s0 with
  | (.error err, s1) => ⟨.ok (.error err), [.NewCommander], s1⟩
  | (.ok _, s1) =>
    match w.BoardList s1 with
    | (.error err, s2) => ⟨.ok (.error err), [.NewCommander, .BoardList], s2⟩
    | (.ok ports, s2) =>
      match boardFromPorts ports params with
      | .error p => ⟨.error p, [.NewCommander, .BoardList], s2⟩
      | .ok none => ⟨.ok (.error (.New "no board found")), [.NewCommander, .BoardList], s2⟩
      | .ok (some board) =>
        match w.Retrieve s2 with
        | (.error err, s3) => ⟨.ok (.error err), [.NewCommander, .BoardList, .Retrieve], s3⟩
        | (.ok conf, s3) =>
          match w.NewClient conf.Client conf.Secret s3 with
          | (.error err, s4) =>
            ⟨.ok (.error err),
              [.NewCommander, .BoardList, .Retrieve, .NewClient conf.Client conf.Secret], s4⟩
          | (.ok _, s4) =>
            match w.DeviceCreate board.fqbn params.Name board.serial board.dType s4 with
            | (.error err, s5) =>
              ⟨.ok (.error err),
                [.NewCommander, .BoardList, .Retrieve, .NewClient conf.Client conf.Secret,
                  .DeviceCreate board.fqbn params.Name board.serial board.dType], s5⟩
            | (.ok dev, s5) =>
              match w.run board dev.Id s5 with
              | (some err, s6) =>
                ⟨.ok (.error (Errorf_s_w "cannot provision device" err)),
                  [.NewCommander, .BoardList, .Retrieve, .NewClient conf.Client conf.Secret,
                    .DeviceCreate board.fqbn params.Name board.serial board.dType,
                    .run board dev.Id, .DeviceDelete dev.Id],
                  (w.DeviceDelete dev.Id s6).2⟩
              | (none, s6) =>
                ⟨.ok (.ok ⟨dev.Name, dev.Id, dev.Type_, dev.Serial, dev.Fqbn⟩),
                  [.NewCommander, .BoardList, .Retrieve, .NewClient conf.Client conf.Secret,
                    .DeviceCreate board.fqbn params.Name board.serial board.dType,
                    .run board dev.Id],
                  s6⟩

/-- Ids passed to `DeviceDelete` in a log of calls, in order. -/
def deleteCalls : List Call → List String
  | [] => []
  | .DeviceDelete id :: cs => id :: deleteCalls cs
  | _ :: cs => deleteCalls cs

/-- Pairs of board and device id passed to `prov.run` in a log of calls. -/
def runCalls : List Call → List (board × String)
  | [] => []
  | .run b id :: cs => (b, id) :: runCalls cs
  | _ :: cs => runCalls cs

/-- A registry for examples. The state is the list of ids of the devices it
holds. `BoardList` reports `ports`; `DeviceCreate` stores a device with id
`"dev-1"` that repeats the arguments it was given, or fails with `createErr`;
`run` fails with `runErr` if there is one; `DeviceDelete` removes the id, or
fails with `deleteErr` leaving the device in place. -/
def sampleWorld (ports : List DetectedPort) (createErr runErr deleteErr : Option GoError) :
    World (List String) where
  NewCommander := fun s => (.ok (), s)
  BoardList := fun s => (.ok ports, s)
  Retrieve := fun s => (.ok ⟨"client", "secret"⟩, s)
  NewClient := fun _ _ s => (.ok (), s)
  DeviceCreate := fun fqbn name serial dType s =>
    match createErr with
    | some err => (.error err, s)
    | none => (.ok ⟨"dev-1", name, dType, serial, fqbn⟩, "dev-1" :: s)
  run := fun _ _ s => (runErr, s)
  DeviceDelete := fun id s =>
    match deleteErr with
    | some err => (some err, s)
    | none => (none, s.filter (fun x => decide (x ≠ id)))

/-- A registry that stores every device under the name `"renamed"`,
whatever name it was asked for; otherwise as `sampleWorld` without failures. -/
def renamingWorld (ports : List DetectedPort) : World (List String) where
  NewCommander := fun s => (.ok (), s)
  BoardList := fun s => (.ok ports, s)
  Retrieve := fun s => (.ok ⟨"client", "secret"⟩, s)
  NewClient := fun _ _ s => (.ok (), s)
  DeviceCreate := fun fqbn _ serial dType s =>
    (.ok ⟨"dev-1", "renamed", dType, serial, fqbn⟩, "dev-1" :: s)
  run := fun _ _ s => (none, s)
  DeviceDelete := fun id s => (none, s.filter (fun x => decide (x ≠ id)))

/-! ## Auxiliary facts about `strings.Split` -/

/-- The split has one more segment than there are separators. -/
theorem splitChars_length (sep : Char) (l : List Char) :
    (splitChars sep l).length = l.count sep + 1 := by
  induction l with
  | nil => rfl
  | cons c cs ih =>
    unfold splitChars
    by_cases h : c = sep
    · simp [h, ih]
    · cases hs : splitChars sep cs with
      | nil => rw [hs] at ih; simp at ih
      | cons seg segs =>
        rw [hs] at ih
        simp only [List.length_cons] at ih
        simp [h, List.count_cons]
        omega

/-- Joining the segments with the separator gives the text back, and no
segment contains the separator: `splitChars` is the split of `strings.Split`. -/
theorem splitChars_join (sep : Char) (l : List Char) :
    [sep].intercalate (splitChars sep l) = l ∧ ∀ seg ∈ splitChars sep l, sep ∉ seg := by
  induction l with
  | nil => simp [splitChars, List.intercalate]
  | cons c cs ih =>
    unfold splitChars
    by_cases h : c = sep
    · subst h
      simp only [if_true]
      cases hs : splitChars c cs with
      | nil => have := splitChars_length c cs; rw [hs] at this; simp at this
      | cons seg segs =>
        rw [hs] at ih
        constructor
        · have := ih.1
          simp [List.intercalate, List.intersperse] at this ⊢
          exact this
        · intro s hs'
          simp at hs'
          rcases hs' with rfl | rfl | h3
          · simp
          · exact ih.2 _ (by simp)
          · exact ih.2 _ (by simp [h3])
    · simp only [h, if_false]
      cases hs : splitChars sep cs with
      | nil => have := splitChars_length sep cs; rw [hs] at this; simp at this
      | cons seg segs =>
        rw [hs] at ih
        constructor
        · have := ih.1
          cases segs <;> simp [List.intercalate, List.intersperse] at this ⊢ <;> exact this
        · intro s hs'
          simp at hs'
          rcases hs' with rfl | h3
          · have := ih.2 seg (by simp)
            simp [this]
            exact fun h' => h h'.symm
          · exact ih.2 _ (by simp [h3])

/-! ## Auxiliary facts about the selection -/

theorem portFilter_eq_false (port : DetectedPort) (params : CreateParams) :
    portFilter port params = false ↔
      port.Boards ≠ [] ∧ (params.Port = none ∨ params.Port = some port.Address) := by
  unfold portFilter
  cases hb : port.Boards with
  | nil => simp
  | cons c cs =>
    cases hp : params.Port with
    | none => simp
    | some a => simp

theorem boardFilter_ok_some (boards : List BoardListItem) (params : CreateParams)
    (c : BoardListItem) (h : boardFilter boards params = .ok (some c)) :
    c ∈ boards ∧ (params.Fqbn = none ∨ params.Fqbn = some c.Fqbn) ∧
      (params.Fqbn = none → boards.head? = some c) := by
  unfold boardFilter at h
  cases hf : params.Fqbn with
  | none =>
    rw [hf] at h
    cases boards with
    | nil => simp at h
    | cons b bs =>
      simp at h
      simp [h]
  | some f =>
    rw [hf] at h
    simp only [Except.ok.injEq] at h
    have hm := List.mem_of_find?_eq_some h
    have hq := List.find?_some h
    simp at hq
    simp [hm, hq]

theorem boardFilter_ok_none (boards : List BoardListItem) (params : CreateParams)
    (h : boardFilter boards params = .ok none) :
    ∃ f, params.Fqbn = some f ∧ ∀ c ∈ boards, c.Fqbn ≠ f := by
  unfold boardFilter at h
  cases hf : params.Fqbn with
  | none =>
    rw [hf] at h
    cases boards <;> simp at h
  | some f =>
    rw [hf] at h
    simp only [Except.ok.injEq] at h
    refine ⟨f, rfl, ?_⟩
    intro c hc
    have := List.find?_eq_none.mp h c hc
    simpa using this

theorem boardFilter_error (boards : List BoardListItem) (params : CreateParams) (p : GoPanic)
    (h : boardFilter boards params = .error p) : boards = [] := by
  unfold boardFilter at h
  cases hf : params.Fqbn with
  | none =>
    rw [hf] at h
    cases boards <;> simp at h
    rfl
  | some f =>
    rw [hf] at h
    simp at h

/-- A board returned by `boardFromPorts` is built from a candidate that
`boardFilter` returned on a port that `portFilter` kept. -/
theorem boardFromPorts_ok_some (ports : List DetectedPort) (params : CreateParams) (b : board)
    (h : boardFromPorts ports params = .ok (some b)) :
    ∃ port ∈ ports, portFilter port params = false ∧
      ∃ c, boardFilter port.Boards params = .ok (some c) ∧
        (strings.Split c.Fqbn ':')[2]? = some b.dType ∧
        b = ⟨c.Fqbn, port.SerialNumber, b.dType, port.Address⟩ := by
  induction ports with
  | nil => simp [boardFromPorts] at h
  | cons port ports ih =>
    unfold boardFromPorts at h
    cases hpf : portFilter port params with
    | true =>
      simp only [hpf, if_true] at h
      obtain ⟨q, hq, rest⟩ := ih h
      exact ⟨q, List.mem_cons_of_mem _ hq, rest⟩
    | false =>
      simp only [hpf] at h
      cases hbf : boardFilter port.Boards params with
      | error p => simp [hbf] at h
      | ok o =>
        cases o with
        | none =>
          simp only [hbf] at h
          obtain ⟨q, hq, rest⟩ := ih (by simpa using h)
          exact ⟨q, List.mem_cons_of_mem _ hq, rest⟩
        | some c =>
          simp only [hbf] at h
          cases ht : (strings.Split c.Fqbn ':')[2]? with
          | none => simp [ht] at h
          | some t =>
            simp [ht] at h
            subst h
            exact ⟨port, List.mem_cons_self _ _, hpf, c, hbf, ht, rfl⟩

/-- A panic of `boardFromPorts` is the index `[2]` applied to the split of a
listed candidate's fqbn that has fewer than three segments. -/
theorem boardFromPorts_error (ports : List DetectedPort) (params : CreateParams) (pn : GoPanic)
    (h : boardFromPorts ports params = .error pn) :
    ∃ port ∈ ports, ∃ c ∈ port.Boards, (strings.Split c.Fqbn ':').length < 3 ∧
      pn = .indexOutOfRange 2 (strings.Split c.Fqbn ':').length := by
  induction ports with
  | nil => simp [boardFromPorts] at h
  | cons port ports ih =>
    unfold boardFromPorts at h
    cases hpf : portFilter port params with
    | true =>
      simp only [hpf, if_true] at h
      obtain ⟨q, hq, rest⟩ := ih h
      exact ⟨q, List.mem_cons_of_mem _ hq, rest⟩
    | false =>
      simp only [hpf] at h
      cases hbf : boardFilter port.Boards params with
      | error p =>
        have h1 := boardFilter_error _ _ _ hbf
        have h2 := (portFilter_eq_false port params).mp hpf
        exact absurd h1 h2.1
      | ok o =>
        cases o with
        | none =>
          simp only [hbf] at h
          obtain ⟨q, hq, rest⟩ := ih (by simpa using h)
          exact ⟨q, List.mem_cons_of_mem _ hq, rest⟩
        | some c =>
          simp only [hbf] at h
          have hc := (boardFilter_ok_some _ _ _ hbf).1
          cases ht : (strings.Split c.Fqbn ':')[2]? with
          | none =>
            simp [ht] at h
            have hlen : (strings.Split c.Fqbn ':').length ≤ 2 := by
              simpa using ht
            exact ⟨port, List.mem_cons_self _ _, c, hc, by omega, h.symm⟩
          | some t => simp [ht] at h

/-- Not-found is returned exactly when no port has a non-empty board list,
passes the port filter and lists a candidate passing the fqbn filter. -/
theorem boardFromPorts_ok_none_iff (ports : List DetectedPort) (params : CreateParams) :
    boardFromPorts ports params = .ok none ↔
      ∀ p ∈ ports, ¬ (p.Boards ≠ [] ∧ (params.Port = none ∨ params.Port = some p.Address) ∧
        ∃ c ∈ p.Boards, (params.Fqbn = none ∨ params.Fqbn = some c.Fqbn)) := by
  induction ports with
  | nil => simp [boardFromPorts]
  | cons port ports ih =>
    unfold boardFromPorts
    cases hpf : portFilter port params with
    | true =>
      simp only [if_true, ih, List.forall_mem_cons]
      have hnot : ¬ (port.Boards ≠ [] ∧
          (params.Port = none ∨ params.Port = some port.Address)) := by
        intro hq
        have := (portFilter_eq_false port params).mpr hq
        simp [hpf] at this
      constructor
      · intro hrest
        exact ⟨fun hq => hnot ⟨hq.1, hq.2.1⟩, hrest⟩
      · intro hall
        exact hall.2
    | false =>
      have hkeep := (portFilter_eq_false port params).mp hpf
      cases hbf : boardFilter port.Boards params with
      | error p =>
        exact absurd (boardFilter_error _ _ _ hbf) hkeep.1
      | ok o =>
        cases o with
        | none =>
          obtain ⟨f, hf, hno⟩ := boardFilter_ok_none _ _ hbf
          simp only [Bool.false_eq_true, if_false, ih, List.forall_mem_cons]
          constructor
          · intro hrest
            refine ⟨?_, hrest⟩
            rintro ⟨_, _, c, hc, hcf⟩
            rw [hf] at hcf
            rcases hcf with hcf | hcf
            · simp at hcf
            · simp only [Option.some.injEq] at hcf
              exact hno c hc hcf.symm
          · intro hall
            exact hall.2
        | some c =>
          obtain ⟨hc, hcf, _⟩ := boardFilter_ok_some _ _ _ hbf
          simp only [Bool.false_eq_true, if_false, List.forall_mem_cons]
          constructor
          · intro h
            cases ht : (strings.Split c.Fqbn ':')[2]? <;> simp [ht] at h
          · intro hall
            exact absurd ⟨hkeep.1, hkeep.2, c, hc, hcf⟩ hall.1

/-- Ports that are skipped, or on which no candidate passes the fqbn filter,
do not end the loop: the search goes on with the ports after them. -/
theorem boardFromPorts_append (pre rest : List DetectedPort) (params : CreateParams)
    (hpre : ∀ q ∈ pre, portFilter q params = true ∨ boardFilter q.Boards params = .ok none) :
    boardFromPorts (pre ++ rest) params = boardFromPorts rest params := by
  induction pre with
  | nil => rfl
  | cons q pre ih =>
    have hq := hpre q (List.mem_cons_self _ _)
    have ih2 := ih (fun x hx => hpre x (List.mem_cons_of_mem _ hx))
    rw [List.cons_append, boardFromPorts]
    cases hpf : portFilter q params with
    | true => simpa using ih2
    | false =>
      rcases hq with hq | hq
      · simp [hpf] at hq
      · simp [hq, ih2]

/-- With an fqbn filter that no listed candidate equals, `boardFilter`
returns `nil`. -/
theorem boardFilter_fqbn_no_match (boards : List BoardListItem) (name : String)
    (pf : Option String) (f : String) (hno : ∀ c ∈ boards, c.Fqbn ≠ f) :
    boardFilter boards ⟨name, pf, some f⟩ = .ok none := by
  simp only [boardFilter, Except.ok.injEq]
  apply List.find?_eq_none.mpr
  intro c hc
  simpa using hno c hc

/-- With an fqbn filter that some listed candidate equals, `boardFilter`
returns a listed candidate with that fqbn. -/
theorem boardFilter_fqbn_match (boards : List BoardListItem) (name : String)
    (pf : Option String) (f : String) (h : ∃ c ∈ boards, c.Fqbn = f) :
    ∃ c ∈ boards, c.Fqbn = f ∧ boardFilter boards ⟨name, pf, some f⟩ = .ok (some c) := by
  cases hfind : boards.find? (fun b => decide (b.Fqbn = f)) with
  | none =>
    obtain ⟨c, hc, hcf⟩ := h
    have := List.find?_eq_none.mp hfind c hc
    simp [hcf] at this
  | some c =>
    have hm := List.mem_of_find?_eq_some hfind
    have hq := List.find?_some hfind
    simp only [decide_eq_true_eq] at hq
    exact ⟨c, hm, hq, by simp [boardFilter, hfind]⟩

/-- With no filter, the selection is decided by the first candidate `c` of
the first port `p` with a non-empty board list: the board built from them
when the fqbn of `c` has an element of index 2 in its split, the panic of the
index expression otherwise. -/
theorem boardFromPorts_no_filter (ports : List DetectedPort) (name : String)
    (p : DetectedPort) (c : BoardListItem)
    (hp : ports.find? (fun q => decide (q.Boards ≠ [])) = some p)
    (hc : p.Boards.head? = some c) :
    boardFromPorts ports ⟨name, none, none⟩ =
      match (strings.Split c.Fqbn ':')[2]? with
      | none => .error (.indexOutOfRange 2 (strings.Split c.Fqbn ':').length)
      | some t => .ok (some ⟨c.Fqbn, p.SerialNumber, t, p.Address⟩) := by
  induction ports with
  | nil => simp at hp
  | cons q qs ih =>
    rw [boardFromPorts]
    by_cases hq : q.Boards = []
    · have hskip : portFilter q ⟨name, none, none⟩ = true := by
        simp [portFilter, hq]
      rw [List.find?_cons] at hp
      simp only [hq, ne_eq, not_true_eq_false, decide_False] at hp
      simp only [hskip, if_true]
      exact ih hp
    · have hkeepq : portFilter q ⟨name, none, none⟩ = false :=
        (portFilter_eq_false q _).mpr ⟨hq, Or.inl rfl⟩
      rw [List.find?_cons] at hp
      simp only [hq, ne_eq, not_false_eq_true, decide_True, Option.some.injEq] at hp
      subst hp
      have hbf : boardFilter q.Boards ⟨name, none, none⟩ = .ok (some c) := by
        cases hb : q.Boards with
        | nil => exact absurd hb hq
        | cons b bs =>
          rw [hb] at hc
          simp only [List.head?_cons, Option.some.injEq] at hc
          simp [boardFilter, hc]
      simp [hkeepq, hbf]

/-! ## Properties of the board selection -/

/-- C4. With an fqbn filter `f`, a board returned by `boardFromPorts` has
fqbn exactly `f`, and that fqbn is the fqbn of a candidate listed on a port of
the sequence whose address and serial number are the ones the board carries. -/
theorem boardFromPorts_fqbn_filter (ports : List DetectedPort) (name : String)
    (pf : Option String) (f : String) (b : board)
    (h : boardFromPorts ports ⟨name, pf, some f⟩ = .ok (some b)) :
    b.fqbn = f ∧
      ∃ port ∈ ports, port.Address = b.port ∧ port.SerialNumber = b.serial ∧
        ∃ c ∈ port.Boards, c.Fqbn = b.fqbn := by
  obtain ⟨port, hport, _, c, hbf, _, hb⟩ := boardFromPorts_ok_some _ _ _ h
  obtain ⟨hc, hcf, _⟩ := boardFilter_ok_some _ _ _ hbf
  have hfq : b.fqbn = c.Fqbn := by rw [hb]
  have hse : b.serial = port.SerialNumber := by rw [hb]
  have hpo : b.port = port.Address := by rw [hb]
  refine ⟨?_, port, hport, hpo.symm, hse.symm, c, hc, hfq.symm⟩
  rcases hcf with hcf | hcf
  · simp at hcf
  · simp only [Option.some.injEq] at hcf
    rw [hfq, hcf]

/-- Witness of C4: two candidates whose fqbn differ only in the case of one
letter; the filter selects the one that is equal to it. -/
theorem boardFromPorts_fqbn_filter_witness :
    boardFromPorts [⟨"A", "sa", [⟨"n1", "x:y:z"⟩, ⟨"n2", "x:y:Z"⟩]⟩] ⟨"abc", none, some "x:y:Z"⟩
        = .ok (some ⟨"x:y:Z", "sa", "Z", "A"⟩) ∧
      (⟨"x:y:Z", "sa", "Z", "A"⟩ : board).fqbn = "x:y:Z" ∧
      ∃ port ∈ [(⟨"A", "sa", [⟨"n1", "x:y:z"⟩, ⟨"n2", "x:y:Z"⟩]⟩ : DetectedPort)],
        port.Address = (⟨"x:y:Z", "sa", "Z", "A"⟩ : board).port ∧
        port.SerialNumber = (⟨"x:y:Z", "sa", "Z", "A"⟩ : board).serial ∧
        ∃ c ∈ port.Boards, c.Fqbn = (⟨"x:y:Z", "sa", "Z", "A"⟩ : board).fqbn :=
  ⟨by decide,
    boardFromPorts_fqbn_filter [⟨"A", "sa", [⟨"n1", "x:y:z"⟩, ⟨"n2", "x:y:Z"⟩]⟩] "abc" none
      "x:y:Z" ⟨"x:y:Z", "sa", "Z", "A"⟩ (by decide)⟩

/-- C5. With a port filter `p`, a board returned by `boardFromPorts` has port
address `p`, and it was built from a port of the sequence whose address is
`p` (never from a port with another address). -/
theorem boardFromPorts_port_filter (ports : List DetectedPort) (name : String)
    (p : String) (ff : Option String) (b : board)
    (h : boardFromPorts ports ⟨name, some p, ff⟩ = .ok (some b)) :
    b.port = p ∧
      ∃ port ∈ ports, port.Address = p ∧ port.SerialNumber = b.serial ∧
        ∃ c ∈ port.Boards, c.Fqbn = b.fqbn := by
  obtain ⟨port, hport, hpf, c, hbf, _, hb⟩ := boardFromPorts_ok_some _ _ _ h
  obtain ⟨hc, _, _⟩ := boardFilter_ok_some _ _ _ hbf
  have hfq : b.fqbn = c.Fqbn := by rw [hb]
  have hse : b.serial = port.SerialNumber := by rw [hb]
  have hpo : b.port = port.Address := by rw [hb]
  have hkeep := ((portFilter_eq_false port _).mp hpf).2
  have hadr : port.Address = p := by
    rcases hkeep with hk | hk
    · simp at hk
    · simp only [Option.some.injEq] at hk
      exact hk.symm
  exact ⟨hpo.trans hadr, port, hport, hadr, hse.symm, c, hc, hfq.symm⟩

/-- Witness of C5: the first port has a board but another address. -/
theorem boardFromPorts_port_filter_witness :
    boardFromPorts [⟨"A", "sa", [⟨"n1", "a:b:c"⟩]⟩, ⟨"B", "sb", [⟨"n2", "x:y:z"⟩]⟩]
        ⟨"abc", some "B", none⟩ = .ok (some ⟨"x:y:z", "sb", "z", "B"⟩) ∧
      (⟨"x:y:z", "sb", "z", "B"⟩ : board).port = "B" ∧
      ∃ port ∈ [(⟨"A", "sa", [⟨"n1", "a:b:c"⟩]⟩ : DetectedPort), ⟨"B", "sb", [⟨"n2", "x:y:z"⟩]⟩],
        port.Address = "B" ∧
        port.SerialNumber = (⟨"x:y:z", "sb", "z", "B"⟩ : board).serial ∧
        ∃ c ∈ port.Boards, c.Fqbn = (⟨"x:y:z", "sb", "z", "B"⟩ : board).fqbn :=
  ⟨by decide,
    boardFromPorts_port_filter [⟨"A", "sa", [⟨"n1", "a:b:c"⟩]⟩, ⟨"B", "sb", [⟨"n2", "x:y:z"⟩]⟩]
      "abc" "B" none ⟨"x:y:z", "sb", "z", "B"⟩ (by decide)⟩

/-- C6, as stated, fails. Port `A` is the first port that is not skipped and
lists no candidate with fqbn `"x:y:z"`; the loop goes on to port `B` and
returns its board instead of not-found. -/
theorem boardFromPorts_single_port_stop_counterexample :
    portFilter ⟨"A", "sa", [⟨"n1", "a:b:c"⟩]⟩ ⟨"abc", none, some "x:y:z"⟩ = false ∧
      (∀ c ∈ (⟨"A", "sa", [⟨"n1", "a:b:c"⟩]⟩ : DetectedPort).Boards, c.Fqbn ≠ "x:y:z") ∧
      boardFromPorts [⟨"A", "sa", [⟨"n1", "a:b:c"⟩]⟩, ⟨"B", "sb", [⟨"n2", "x:y:z"⟩]⟩]
        ⟨"abc", none, some "x:y:z"⟩ = .ok (some ⟨"x:y:z", "sb", "z", "B"⟩) ∧
      boardFromPorts [⟨"A", "sa", [⟨"n1", "a:b:c"⟩]⟩, ⟨"B", "sb", [⟨"n2", "x:y:z"⟩]⟩]
        ⟨"abc", none, some "x:y:z"⟩ ≠ .ok none := by
  decide

/-- C6, amended. When the first port that is not skipped lists no candidate
with fqbn `f`, the search continues: the result is the result of the search
over the ports after it. In particular, when `f` has a third segment `t`, the
first later port that is not skipped and lists a candidate with fqbn `f`
(the ports between being skipped or without such a candidate) yields the
board with fqbn `f`, the serial number and address of that port, and type
`t`. -/
theorem boardFromPorts_scans_later_ports (pre rest : List DetectedPort) (port : DetectedPort)
    (name : String) (pf : Option String) (f : String)
    (hpre : ∀ q ∈ pre, portFilter q ⟨name, pf, some f⟩ = true)
    (hkeep : portFilter port ⟨name, pf, some f⟩ = false)
    (hno : ∀ c ∈ port.Boards, c.Fqbn ≠ f) :
    boardFromPorts (pre ++ port :: rest) ⟨name, pf, some f⟩
        = boardFromPorts rest ⟨name, pf, some f⟩ ∧
      ∀ (mid after : List DetectedPort) (q : DetectedPort) (t : String),
        rest = mid ++ q :: after →
        (∀ r ∈ mid, portFilter r ⟨name, pf, some f⟩ = true ∨ ∀ c ∈ r.Boards, c.Fqbn ≠ f) →
        portFilter q ⟨name, pf, some f⟩ = false →
        (∃ c ∈ q.Boards, c.Fqbn = f) →
        (strings.Split f ':')[2]? = some t →
        boardFromPorts (pre ++ port :: rest) ⟨name, pf, some f⟩
          = .ok (some ⟨f, q.SerialNumber, t, q.Address⟩) := by
  have hbf := boardFilter_fqbn_no_match port.Boards name pf f hno
  have h1 := boardFromPorts_append pre (port :: rest) ⟨name, pf, some f⟩
    (fun q hq => Or.inl (hpre q hq))
  have h2 := boardFromPorts_append [port] rest ⟨name, pf, some f⟩
    (fun q hq => by
      simp only [List.mem_singleton] at hq
      subst hq
      exact Or.inr hbf)
  have heq : boardFromPorts (pre ++ port :: rest) ⟨name, pf, some f⟩
      = boardFromPorts rest ⟨name, pf, some f⟩ := by
    rw [h1]
    simpa using h2
  refine ⟨heq, ?_⟩
  intro mid after q t hrest hmid hq hex ht
  have h3 := boardFromPorts_append mid (q :: after) ⟨name, pf, some f⟩
    (fun r hr => by
      rcases hmid r hr with hs | hs
      · exact Or.inl hs
      · exact Or.inr (boardFilter_fqbn_no_match r.Boards name pf f hs))
  obtain ⟨c, _, hcf, hc⟩ := boardFilter_fqbn_match q.Boards name pf f hex
  rw [heq, hrest, h3, boardFromPorts]
  simp [hq, hc, hcf, ht]

/-- Witness of C6 amended: a skipped port, a kept port without a match, and
a later port whose matching board is the result. -/
theorem boardFromPorts_scans_later_ports_witness :
    (∀ q ∈ [(⟨"E", "se", []⟩ : DetectedPort)],
        portFilter q ⟨"abc", none, some "x:y:z"⟩ = true) ∧
      portFilter ⟨"A", "sa", [⟨"n1", "a:b:c"⟩]⟩ ⟨"abc", none, some "x:y:z"⟩ = false ∧
      (∀ c ∈ (⟨"A", "sa", [⟨"n1", "a:b:c"⟩]⟩ : DetectedPort).Boards, c.Fqbn ≠ "x:y:z") ∧
      portFilter ⟨"B", "sb", [⟨"n2", "x:y:z"⟩]⟩ ⟨"abc", none, some "x:y:z"⟩ = false ∧
      (strings.Split "x:y:z" ':')[2]? = some "z" ∧
      boardFromPorts ([⟨"E", "se", []⟩] ++ ⟨"A", "sa", [⟨"n1", "a:b:c"⟩]⟩ ::
          [⟨"B", "sb", [⟨"n2", "x:y:z"⟩]⟩]) ⟨"abc", none, some "x:y:z"⟩
        = boardFromPorts [⟨"B", "sb", [⟨"n2", "x:y:z"⟩]⟩] ⟨"abc", none, some "x:y:z"⟩ ∧
      boardFromPorts ([⟨"E", "se", []⟩] ++ ⟨"A", "sa", [⟨"n1", "a:b:c"⟩]⟩ ::
          [⟨"B", "sb", [⟨"n2", "x:y:z"⟩]⟩]) ⟨"abc", none, some "x:y:z"⟩
        = .ok (some ⟨"x:y:z", "sb", "z", "B"⟩) :=
  have h := boardFromPorts_scans_later_ports [⟨"E", "se", []⟩] [⟨"B", "sb", [⟨"n2", "x:y:z"⟩]⟩]
    ⟨"A", "sa", [⟨"n1", "a:b:c"⟩]⟩ "abc" none "x:y:z" (by decide) (by decide) (by decide)
  ⟨by decide, by decide, by decide, by decide, by decide, h.1,
    h.2 [] [] ⟨"B", "sb", [⟨"n2", "x:y:z"⟩]⟩ "z" rfl (by decide) (by decide)
      ⟨⟨"n2", "x:y:z"⟩, by decide, rfl⟩ (by decide)⟩

/-- C7, as stated, fails. For the candidate `"arduino:samd:mkr1000"` the
board type is the element of index 2 of the split, `"mkr1000"`, and no
returned board has type `"samd"`. -/
theorem boardFromPorts_dType_samd_counterexample :
    boardFromPorts [⟨"A", "sa", [⟨"n", "arduino:samd:mkr1000"⟩]⟩] ⟨"abc", none, none⟩
        = .ok (some ⟨"arduino:samd:mkr1000", "sa", "mkr1000", "A"⟩) ∧
      ¬ ∃ b, boardFromPorts [⟨"A", "sa", [⟨"n", "arduino:samd:mkr1000"⟩]⟩] ⟨"abc", none, none⟩
        = .ok (some b) ∧ b.dType = "samd" := by
  refine ⟨by decide, ?_⟩
  rintro ⟨b, hb, ht⟩
  have h0 : boardFromPorts [⟨"A", "sa", [⟨"n", "arduino:samd:mkr1000"⟩]⟩] ⟨"abc", none, none⟩
      = .ok (some ⟨"arduino:samd:mkr1000", "sa", "mkr1000", "A"⟩) := by decide
  rw [h0] at hb
  simp only [Except.ok.injEq, Option.some.injEq] at hb
  subst hb
  revert ht
  decide

/-- C7, amended. Whatever the ports and parameters, a board returned by
`boardFromPorts` with fqbn `"arduino:samd:mkr1000"` has board type
`"mkr1000"`. -/
theorem boardFromPorts_dType_mkr1000 (ports : List DetectedPort) (params : CreateParams)
    (b : board) (h : boardFromPorts ports params = .ok (some b))
    (hf : b.fqbn = "arduino:samd:mkr1000") : b.dType = "mkr1000" := by
  obtain ⟨port, _, _, c, _, ht, hb⟩ := boardFromPorts_ok_some _ _ _ h
  have hfq : b.fqbn = c.Fqbn := by rw [hb]
  rw [← hfq, hf] at ht
  have hs : (strings.Split "arduino:samd:mkr1000" ':')[2]? = some "mkr1000" := by decide
  rw [hs] at ht
  simp only [Option.some.injEq] at ht
  exact ht.symm

/-- Witness of C7 amended. -/
theorem boardFromPorts_dType_mkr1000_witness :
    boardFromPorts [⟨"A", "sa", [⟨"n", "arduino:samd:mkr1000"⟩]⟩] ⟨"abc", none, none⟩
        = .ok (some ⟨"arduino:samd:mkr1000", "sa", "mkr1000", "A"⟩) ∧
      (⟨"arduino:samd:mkr1000", "sa", "mkr1000", "A"⟩ : board).fqbn = "arduino:samd:mkr1000" ∧
      (⟨"arduino:samd:mkr1000", "sa", "mkr1000", "A"⟩ : board).dType = "mkr1000" :=
  ⟨by decide, by decide,
    boardFromPorts_dType_mkr1000 [⟨"A", "sa", [⟨"n", "arduino:samd:mkr1000"⟩]⟩]
      ⟨"abc", none, none⟩ ⟨"arduino:samd:mkr1000", "sa", "mkr1000", "A"⟩ (by decide) (by decide)⟩

/-- C8: the code aborts where the claim asks for an error. When the candidate
matched on the first port that ends the search has an fqbn with fewer than
three segments, `boardFromPorts` neither returns a board nor reports an
error: the index `[2]` panics, out of range for the length of the split. -/
theorem boardFromPorts_malformed_fqbn_panics (pre rest : List DetectedPort)
    (port : DetectedPort) (params : CreateParams) (c : BoardListItem)
    (hpre : ∀ q ∈ pre, portFilter q params = true ∨ boardFilter q.Boards params = .ok none)
    (hkeep : portFilter port params = false)
    (hc : boardFilter port.Boards params = .ok (some c))
    (hlen : (strings.Split c.Fqbn ':').length < 3) :
    boardFromPorts (pre ++ port :: rest) params
      = .error (.indexOutOfRange 2 (strings.Split c.Fqbn ':').length) := by
  rw [boardFromPorts_append pre (port :: rest) params hpre, boardFromPorts]
  have ht : (strings.Split c.Fqbn ':')[2]? = none := by
    apply List.getElem?_eq_none
    omega
  simp [hkeep, hc, ht]

/-- Witness of C8: one port with one candidate of fqbn `"arduino:samd"`, no
filter. The split has two elements, the selection panics, and so does
`Create`, before any call to the registry. -/
theorem boardFromPorts_malformed_fqbn_panics_witness :
    (∀ q ∈ ([] : List DetectedPort), portFilter q ⟨"abc", none, none⟩ = true ∨
        boardFilter q.Boards ⟨"abc", none, none⟩ = .ok none) ∧
      portFilter ⟨"A", "sa", [⟨"n", "arduino:samd"⟩]⟩ ⟨"abc", none, none⟩ = false ∧
      boardFilter [⟨"n", "arduino:samd"⟩] ⟨"abc", none, none⟩ = .ok (some ⟨"n", "arduino:samd"⟩) ∧
      (strings.Split "arduino:samd" ':').length = 2 ∧
      boardFromPorts ([] ++ ⟨"A", "sa", [⟨"n", "arduino:samd"⟩]⟩ :: []) ⟨"abc", none, none⟩
        = .error (.indexOutOfRange 2 (strings.Split "arduino:samd" ':').length) ∧
      (Create (sampleWorld [⟨"A", "sa", [⟨"n", "arduino:samd"⟩]⟩] none none none)
        ⟨"abc", none, none⟩ []).result = .error (.indexOutOfRange 2 2) :=
  ⟨by decide, by decide, by decide, by decide,
    boardFromPorts_malformed_fqbn_panics [] [] ⟨"A", "sa", [⟨"n", "arduino:samd"⟩]⟩
      ⟨"abc", none, none⟩ ⟨"n", "arduino:samd"⟩ (by decide) (by decide) (by decide) (by decide),
    by decide⟩

/-- C9: the code aborts where the claim (and the comment of `boardFromPorts`,
"If no criteria are passed, it returns the first board found") asks for a
board. With no port filter and no fqbn filter, let `p` be the first port of
the sequence with a non-empty board list and `c` its first candidate. If the
fqbn of `c` has a third segment `t`, `boardFromPorts` returns the board with
the fqbn of `c`, the serial number and address of `p`, and type `t`, as the
claim says. If the fqbn of `c` has fewer than three segments, the index `[2]`
panics and no board is returned. -/
theorem boardFromPorts_first_board_or_panic (ports : List DetectedPort) (name : String)
    (p : DetectedPort) (c : BoardListItem)
    (hp : ports.find? (fun q => decide (q.Boards ≠ [])) = some p)
    (hc : p.Boards.head? = some c) :
    (∀ t, (strings.Split c.Fqbn ':')[2]? = some t →
        boardFromPorts ports ⟨name, none, none⟩
          = .ok (some ⟨c.Fqbn, p.SerialNumber, t, p.Address⟩)) ∧
      ((strings.Split c.Fqbn ':').length < 3 →
        boardFromPorts ports ⟨name, none, none⟩
            = .error (.indexOutOfRange 2 (strings.Split c.Fqbn ':').length) ∧
          ¬ ∃ b, boardFromPorts ports ⟨name, none, none⟩ = .ok (some b)) := by
  have h := boardFromPorts_no_filter ports name p c hp hc
  constructor
  · intro t ht
    rw [h, ht]
  · intro hlen
    have ht : (strings.Split c.Fqbn ':')[2]? = none := by
      apply List.getElem?_eq_none
      omega
    rw [ht] at h
    refine ⟨h, ?_⟩
    rintro ⟨b, hb⟩
    rw [h] at hb
    simp at hb

/-- Witness of C9. The failing input: one port `A` whose only candidate has
the fqbn `"x"`, no filter; the selection panics and returns no board. And
the example of the specification, ports `A` (no board) and `B` (one board
`"x:y:z"`): the board of `B` with type `"z"`. -/
theorem boardFromPorts_first_board_or_panic_witness :
    ([(⟨"A", "sa", [⟨"n", "x"⟩]⟩ : DetectedPort)].find?
        (fun q => decide (q.Boards ≠ [])) = some ⟨"A", "sa", [⟨"n", "x"⟩]⟩ ∧
      (⟨"A", "sa", [⟨"n", "x"⟩]⟩ : DetectedPort).Boards.head? = some ⟨"n", "x"⟩ ∧
      (strings.Split "x" ':').length = 1 ∧
      boardFromPorts [⟨"A", "sa", [⟨"n", "x"⟩]⟩] ⟨"abc", none, none⟩
        = .error (.indexOutOfRange 2 (strings.Split "x" ':').length) ∧
      ¬ ∃ b, boardFromPorts [⟨"A", "sa", [⟨"n", "x"⟩]⟩] ⟨"abc", none, none⟩ = .ok (some b)) ∧
    ([(⟨"A", "sa", []⟩ : DetectedPort), ⟨"B", "sb", [⟨"n", "x:y:z"⟩]⟩].find?
        (fun q => decide (q.Boards ≠ [])) = some ⟨"B", "sb", [⟨"n", "x:y:z"⟩]⟩ ∧
      (⟨"B", "sb", [⟨"n", "x:y:z"⟩]⟩ : DetectedPort).Boards.head? = some ⟨"n", "x:y:z"⟩ ∧
      (strings.Split "x:y:z" ':')[2]? = some "z" ∧
      boardFromPorts [⟨"A", "sa", []⟩, ⟨"B", "sb", [⟨"n", "x:y:z"⟩]⟩] ⟨"abc", none, none⟩
        = .ok (some ⟨"x:y:z", "sb", "z", "B"⟩)) :=
  have hbad := (boardFromPorts_first_board_or_panic [⟨"A", "sa", [⟨"n", "x"⟩]⟩] "abc"
    ⟨"A", "sa", [⟨"n", "x"⟩]⟩ ⟨"n", "x"⟩ (by decide) (by decide)).2 (by decide)
  have hgood := (boardFromPorts_first_board_or_panic
    [⟨"A", "sa", []⟩, ⟨"B", "sb", [⟨"n", "x:y:z"⟩]⟩] "abc"
    ⟨"B", "sb", [⟨"n", "x:y:z"⟩]⟩ ⟨"n", "x:y:z"⟩ (by decide) (by decide)).1 "z" (by decide)
  ⟨⟨by decide, by decide, by decide, hbad.1, hbad.2⟩,
    ⟨by decide, by decide, by decide, hgood⟩⟩

/-- C10. When every listed candidate has an fqbn of at least three segments,
`boardFromPorts` returns not-found exactly when no port has a non-empty board
list, passes the port filter and lists a candidate passing the fqbn filter;
it returns not-found when every board list is empty; `boardFilter` is only
called on non-empty lists, so its `boards[0]` never panics; and the
selection itself never panics. -/
theorem boardFromPorts_not_found_iff (ports : List DetectedPort) (params : CreateParams)
    (hwf : ∀ p ∈ ports, ∀ c ∈ p.Boards, 3 ≤ (strings.Split c.Fqbn ':').length) :
    (boardFromPorts ports params = .ok none ↔
        ¬ ∃ p ∈ ports, p.Boards ≠ [] ∧
          (params.Port = none ∨ params.Port = some p.Address) ∧
          ∃ c ∈ p.Boards, (params.Fqbn = none ∨ params.Fqbn = some c.Fqbn)) ∧
      ((∀ p ∈ ports, p.Boards = []) → boardFromPorts ports params = .ok none) ∧
      (∀ p ∈ ports, portFilter p params = false →
        p.Boards ≠ [] ∧ ∀ pn, boardFilter p.Boards params ≠ .error pn) ∧
      (∀ pn, boardFromPorts ports params ≠ .error pn) := by
  have hiff := boardFromPorts_ok_none_iff ports params
  refine ⟨?_, ?_, ?_, ?_⟩
  · rw [hiff]
    constructor
    · rintro h ⟨p, hp, hq⟩
      exact h p hp hq
    · intro h p hp hq
      exact h ⟨p, hp, hq⟩
  · intro hempty
    rw [hiff]
    intro p hp hq
    exact hq.1 (hempty p hp)
  · intro p _ hkeep
    have hne := ((portFilter_eq_false p params).mp hkeep).1
    refine ⟨hne, ?_⟩
    intro pn hpn
    exact hne (boardFilter_error _ _ _ hpn)
  · intro pn hpn
    obtain ⟨port, hport, c, hc, hlt, _⟩ := boardFromPorts_error _ _ _ hpn
    have := hwf port hport c hc
    omega

/-- Witness of C10: the only port with a board has another address than the
port filter, so nothing is found. -/
theorem boardFromPorts_not_found_iff_witness :
    (∀ p ∈ [(⟨"A", "sa", []⟩ : DetectedPort), ⟨"B", "sb", [⟨"n", "x:y:z"⟩]⟩],
        ∀ c ∈ p.Boards, 3 ≤ (strings.Split c.Fqbn ':').length) ∧
      boardFromPorts [⟨"A", "sa", []⟩, ⟨"B", "sb", [⟨"n", "x:y:z"⟩]⟩] ⟨"abc", some "A", none⟩
        = .ok none ∧
      ¬ ∃ p ∈ [(⟨"A", "sa", []⟩ : DetectedPort), ⟨"B", "sb", [⟨"n", "x:y:z"⟩]⟩],
        p.Boards ≠ [] ∧
          ((⟨"abc", some "A", none⟩ : CreateParams).Port = none ∨
            (⟨"abc", some "A", none⟩ : CreateParams).Port = some p.Address) ∧
          ∃ c ∈ p.Boards, ((⟨"abc", some "A", none⟩ : CreateParams).Fqbn = none ∨
            (⟨"abc", some "A", none⟩ : CreateParams).Fqbn = some c.Fqbn) :=
  ⟨by decide, by decide,
    (boardFromPorts_not_found_iff [⟨"A", "sa", []⟩, ⟨"B", "sb", [⟨"n", "x:y:z"⟩]⟩]
      ⟨"abc", some "A", none⟩ (by decide)).1.mp (by decide)⟩

/-! ## Properties of `Create` -/

/-- C1. Whatever the world and the selected board `b`: when `DeviceCreate`
succeeds with a device `d` and `prov.run` fails with `e`, `Create` calls
`DeviceDelete` exactly once, with `d.Id`, and returns no `DeviceInfo` but the
error that wraps `e` under the text `"cannot provision device"`. Nothing is
assumed of `DeviceDelete`: its own result (success or failure) only shows in
the state left behind. -/
theorem Create_provision_failure_rolls_back {σ : Type} (w : World σ) (params : CreateParams)
    (s0 s1 s2 s3 s4 s5 s6 : σ) (ports : List DetectedPort) (b : board) (conf : Config)
    (d : ArduinoDevicev2) (e : GoError)
    (hComm : w.NewCommander s0 = (.ok (), s1))
    (hList : w.BoardList s1 = (.ok ports, s2))
    (hSel : boardFromPorts ports params = .ok (some b))
    (hConf : w.Retrieve s2 = (.ok conf, s3))
    (hClient : w.NewClient conf.Client conf.Secret s3 = (.ok (), s4))
    (hCreate : w.DeviceCreate b.fqbn params.Name b.serial b.dType s4 = (.ok d, s5))
    (hRun : w.run b d.Id s5 = (some e, s6)) :
    deleteCalls (Create w params s0).calls = [d.Id] ∧
      (Create w params s0).result = .ok (.error (Errorf_s_w "cannot provision device" e)) ∧
      (Errorf_s_w "cannot provision device" e).Unwrap = some e ∧
      (Errorf_s_w "cannot provision device" e).Error = "cannot provision device: " ++ e.Error ∧
      (Create w params s0).state = (w.DeviceDelete d.Id s6).2 := by
  simp [Create, hComm, hList, hSel, hConf, hClient, hCreate, hRun, deleteCalls, Errorf_s_w,
    GoError.Unwrap, GoError.Error]

/-- Witness of C1: the device `"dev-1"` is created, provisioning fails with
`"boom"`, and the delete fails too: one call `DeviceDelete "dev-1"`, the
error returned wraps `"boom"`, and the device stays in the registry. -/
theorem Create_provision_failure_rolls_back_witness :
    boardFromPorts [⟨"B", "sb", [⟨"n", "x:y:z"⟩]⟩] ⟨"abc", none, none⟩
        = .ok (some ⟨"x:y:z", "sb", "z", "B"⟩) ∧
      deleteCalls (Create (sampleWorld [⟨"B", "sb", [⟨"n", "x:y:z"⟩]⟩] none
        (some (.New "boom")) (some (.New "delete failed"))) ⟨"abc", none, none⟩ []).calls
        = ["dev-1"] ∧
      (Create (sampleWorld [⟨"B", "sb", [⟨"n", "x:y:z"⟩]⟩] none
        (some (.New "boom")) (some (.New "delete failed"))) ⟨"abc", none, none⟩ []).result
        = .ok (.error (.wrapError "cannot provision device: boom" (.New "boom"))) ∧
      (Create (sampleWorld [⟨"B", "sb", [⟨"n", "x:y:z"⟩]⟩] none
        (some (.New "boom")) (some (.New "delete failed"))) ⟨"abc", none, none⟩ []).state
        = ["dev-1"] :=
  have h := Create_provision_failure_rolls_back
    (sampleWorld [⟨"B", "sb", [⟨"n", "x:y:z"⟩]⟩] none (some (.New "boom"))
      (some (.New "delete failed")))
    ⟨"abc", none, none⟩ [] [] [] [] [] ["dev-1"] ["dev-1"] [⟨"B", "sb", [⟨"n", "x:y:z"⟩]⟩]
    ⟨"x:y:z", "sb", "z", "B"⟩ ⟨"client", "secret"⟩ ⟨"dev-1", "abc", "z", "sb", "x:y:z"⟩
    (.New "boom") rfl rfl (by decide) rfl rfl rfl rfl
  ⟨by decide, h.1, h.2.1, h.2.2.2.2⟩

/-- C2. Whatever the world and the selected board `b`: when `DeviceCreate`
fails with `e`, `Create` returns no `DeviceInfo` and the error `e` itself,
and its calls contain no `DeviceDelete` and no `prov.run`; the last call is
the `DeviceCreate`. -/
theorem Create_create_failure_no_rollback {σ : Type} (w : World σ) (params : CreateParams)
    (s0 s1 s2 s3 s4 s5 : σ) (ports : List DetectedPort) (b : board) (conf : Config)
    (e : GoError)
    (hComm : w.NewCommander s0 = (.ok (), s1))
    (hList : w.BoardList s1 = (.ok ports, s2))
    (hSel : boardFromPorts ports params = .ok (some b))
    (hConf : w.Retrieve s2 = (.ok conf, s3))
    (hClient : w.NewClient conf.Client conf.Secret s3 = (.ok (), s4))
    (hCreate : w.DeviceCreate b.fqbn params.Name b.serial b.dType s4 = (.error e, s5)) :
    (Create w params s0).result = .ok (.error e) ∧
      deleteCalls (Create w params s0).calls = [] ∧
      runCalls (Create w params s0).calls = [] ∧
      (Create w params s0).calls.getLast?
        = some (.DeviceCreate b.fqbn params.Name b.serial b.dType) ∧
      (Create w params s0).state = s5 := by
  simp [Create, hComm, hList, hSel, hConf, hClient, hCreate, deleteCalls, runCalls]

/-- Witness of C2: the registry refuses the device with `"quota"`. -/
theorem Create_create_failure_no_rollback_witness :
    boardFromPorts [⟨"B", "sb", [⟨"n", "x:y:z"⟩]⟩] ⟨"abc", none, none⟩
        = .ok (some ⟨"x:y:z", "sb", "z", "B"⟩) ∧
      (Create (sampleWorld [⟨"B", "sb", [⟨"n", "x:y:z"⟩]⟩] (some (.New "quota")) none none)
        ⟨"abc", none, none⟩ []).result = .ok (.error (.New "quota")) ∧
      deleteCalls (Create (sampleWorld [⟨"B", "sb", [⟨"n", "x:y:z"⟩]⟩] (some (.New "quota"))
        none none) ⟨"abc", none, none⟩ []).calls = [] ∧
      runCalls (Create (sampleWorld [⟨"B", "sb", [⟨"n", "x:y:z"⟩]⟩] (some (.New "quota"))
        none none) ⟨"abc", none, none⟩ []).calls = [] :=
  have h := Create_create_failure_no_rollback
    (sampleWorld [⟨"B", "sb", [⟨"n", "x:y:z"⟩]⟩] (some (.New "quota")) none none)
    ⟨"abc", none, none⟩ [] [] [] [] [] [] [⟨"B", "sb", [⟨"n", "x:y:z"⟩]⟩]
    ⟨"x:y:z", "sb", "z", "B"⟩ ⟨"client", "secret"⟩ (.New "quota")
    rfl rfl (by decide) rfl rfl rfl
  ⟨by decide, h.1, h.2.1, h.2.2.1⟩

/-- C3, as stated, fails. Parameters with name `"abc"` and no filter, one
port with one candidate, a registry whose `DeviceCreate` succeeds and a
provisioning that succeeds: `Create` returns the fields of the device the
registry returned, whose name is `"renamed"`, not `"abc"`. -/
theorem Create_name_counterexample :
    (Create (renamingWorld [⟨"B", "sb", [⟨"n", "x:y:z"⟩]⟩]) ⟨"abc", none, none⟩ []).result
        = .ok (.ok ⟨"renamed", "dev-1", "z", "sb", "x:y:z"⟩) ∧
      deleteCalls (Create (renamingWorld [⟨"B", "sb", [⟨"n", "x:y:z"⟩]⟩])
        ⟨"abc", none, none⟩ []).calls = [] ∧
      ¬ ∃ info, (Create (renamingWorld [⟨"B", "sb", [⟨"n", "x:y:z"⟩]⟩])
        ⟨"abc", none, none⟩ []).result = .ok (.ok info) ∧ info.Name = "abc" := by
  refine ⟨by decide, by decide, ?_⟩
  rintro ⟨info, hinfo, hname⟩
  have h0 : (Create (renamingWorld [⟨"B", "sb", [⟨"n", "x:y:z"⟩]⟩])
      ⟨"abc", none, none⟩ []).result = .ok (.ok ⟨"renamed", "dev-1", "z", "sb", "x:y:z"⟩) := by
    decide
  rw [h0] at hinfo
  simp only [Except.ok.injEq] at hinfo
  subst hinfo
  revert hname
  decide

/-- C3, amended. When `DeviceCreate` succeeds with a device `d` and
`prov.run` succeeds, `Create` returns no error, calls `DeviceDelete` zero
times and returns the `DeviceInfo` made of the fields of `d`. If moreover
the name asked for is `"abc"` and `d` repeats the name, type, serial and fqbn
that `DeviceCreate` was given, the result has name `"abc"` and the type,
serial and fqbn of the selected board; and with no filter, one port and one
candidate, the selected board is that candidate on that port. The state
left is the one left by `prov.run`. -/
theorem Create_success_deviceInfo {σ : Type} (w : World σ) (params : CreateParams)
    (s0 s1 s2 s3 s4 s5 s6 : σ) (ports : List DetectedPort) (b : board) (conf : Config)
    (d : ArduinoDevicev2)
    (hComm : w.NewCommander s0 = (.ok (), s1))
    (hList : w.BoardList s1 = (.ok ports, s2))
    (hSel : boardFromPorts ports params = .ok (some b))
    (hConf : w.Retrieve s2 = (.ok conf, s3))
    (hClient : w.NewClient conf.Client conf.Secret s3 = (.ok (), s4))
    (hCreate : w.DeviceCreate b.fqbn params.Name b.serial b.dType s4 = (.ok d, s5))
    (hRun : w.run b d.Id s5 = (none, s6)) :
    (Create w params s0).result = .ok (.ok ⟨d.Name, d.Id, d.Type_, d.Serial, d.Fqbn⟩) ∧
      deleteCalls (Create w params s0).calls = [] ∧
      (params.Name = "abc" → d.Name = params.Name → d.Type_ = b.dType →
        d.Serial = b.serial → d.Fqbn = b.fqbn →
        (Create w params s0).result = .ok (.ok ⟨"abc", d.Id, b.dType, b.serial, b.fqbn⟩)) ∧
      (∀ (p : DetectedPort) (c : BoardListItem),
        params.Port = none → params.Fqbn = none → ports = [p] → p.Boards = [c] →
        (strings.Split c.Fqbn ':')[2]? = some b.dType ∧
          b = ⟨c.Fqbn, p.SerialNumber, b.dType, p.Address⟩) ∧
      (Create w params s0).state = s6 := by
  have hres : (Create w params s0).result
      = .ok (.ok ⟨d.Name, d.Id, d.Type_, d.Serial, d.Fqbn⟩) := by
    simp [Create, hComm, hList, hSel, hConf, hClient, hCreate, hRun]
  refine ⟨hres, ?_, ?_, ?_, ?_⟩
  · simp [Create, hComm, hList, hSel, hConf, hClient, hCreate, hRun, deleteCalls]
  · intro hn h1 h2 h3 h4
    rw [hres, h1, h2, h3, h4, hn]
  · intro p c _ _ hports hboards
    obtain ⟨port, hport, _, c', hbf, ht, hb⟩ := boardFromPorts_ok_some _ _ _ hSel
    rw [hports, List.mem_singleton] at hport
    subst hport
    have hc' := (boardFilter_ok_some _ _ _ hbf).1
    rw [hboards, List.mem_singleton] at hc'
    subst hc'
    exact ⟨ht, hb⟩
  · simp [Create, hComm, hList, hSel, hConf, hClient, hCreate, hRun]

/-- Witness of C3 amended: a registry that repeats what it is given. -/
theorem Create_success_deviceInfo_witness :
    boardFromPorts [⟨"B", "sb", [⟨"n", "x:y:z"⟩]⟩] ⟨"abc", none, none⟩
        = .ok (some ⟨"x:y:z", "sb", "z", "B"⟩) ∧
      (Create (sampleWorld [⟨"B", "sb", [⟨"n", "x:y:z"⟩]⟩] none none none)
        ⟨"abc", none, none⟩ []).result = .ok (.ok ⟨"abc", "dev-1", "z", "sb", "x:y:z"⟩) ∧
      deleteCalls (Create (sampleWorld [⟨"B", "sb", [⟨"n", "x:y:z"⟩]⟩] none none none)
        ⟨"abc", none, none⟩ []).calls = [] ∧
      (Create (sampleWorld [⟨"B", "sb", [⟨"n", "x:y:z"⟩]⟩] none none none)
        ⟨"abc", none, none⟩ []).state = ["dev-1"] :=
  have h := Create_success_deviceInfo
    (sampleWorld [⟨"B", "sb", [⟨"n", "x:y:z"⟩]⟩] none none none)
    ⟨"abc", none, none⟩ [] [] [] [] [] ["dev-1"] ["dev-1"] [⟨"B", "sb", [⟨"n", "x:y:z"⟩]⟩]
    ⟨"x:y:z", "sb", "z", "B"⟩ ⟨"client", "secret"⟩ ⟨"dev-1", "abc", "z", "sb", "x:y:z"⟩
    rfl rfl (by decide) rfl rfl rfl rfl
  ⟨by decide, h.2.2.1 rfl rfl rfl rfl rfl, h.2.1, h.2.2.2.2⟩

end device
